import Mathlib

/-!
Verification of the LangGraph agentic-platform coordination layer.

The definitions below are a shallow embedding of the routing / workflow code
in `src/core/Agent.js` (the `AgenticPlatform` class), `src/core/Agent.ts`
(the per-agent tool-use loop) and `src/core/WorkflowManager.ts`.
JavaScript strings are modelled as Lean `String`; `toLowerCase`, `trim` and
`includes` are embedded as `strLower`, `strTrim` and `strIncl` below.
A message whose `content` field is not a string is modelled with
`content = none`.
-/

namespace AgenticLab

/-- Embedding of JavaScript `String.prototype.toLowerCase` (character-wise). -/
def strLower (s : String) : String := ⟨s.toList.map Char.toLower⟩

/-- Remove leading and trailing whitespace: JavaScript `String.prototype.trim`. -/
def strTrim (s : String) : String :=
  ⟨((s.toList.dropWhile Char.isWhitespace).reverse.dropWhile Char.isWhitespace).reverse⟩

/-- `startsWithCL pat l` : the character list `l` starts with `pat`. -/
def startsWithCL : List Char → List Char → Bool
  | [], _ => true
  | _ :: _, [] => false
  | p :: ps, c :: cs => p == c && startsWithCL ps cs

/-- `containsCL pat l` : `pat` occurs as a contiguous sublist of `l`. -/
def containsCL (pat : List Char) : List Char → Bool
  | [] => startsWithCL pat []
  | c :: rest => startsWithCL pat (c :: rest) || containsCL pat rest

/-- Embedding of JavaScript `s.includes(pat)` (substring containment). -/
def strIncl (s pat : String) : Bool := containsCL pat.toList s.toList

theorem startsWithCL_self (l : List Char) : startsWithCL l l = true := by
  induction l with
  | nil => rfl
  | cons c cs ih => simp [startsWithCL, ih]

/-- Every string contains itself, as JavaScript `s.includes(s)` is true. -/
theorem strIncl_self (s : String) : strIncl s s = true := by
  unfold strIncl
  cases h : s.toList with
  | nil => rfl
  | cons c cs => simp [containsCL, ← h, startsWithCL_self]

/-- Message roles as distinguished by the source (`SystemMessage`,
`HumanMessage`, `AIMessage`, tool-result messages). -/
inductive Role where
  | system
  | human
  | ai
  | tool
deriving DecidableEq, BEq

/-- A workflow-state message.  `content = none` models a message whose
`content` field is not a string (LangChain allows structured content);
the source guards most accesses with `typeof msg.content === 'string'`. -/
structure Msg where
  role : Role
  content : Option String
deriving DecidableEq

/-- The routing vocabulary `AGENT_ROUTES` of `src/core/Agent.js`
(`Object.values` order: oracle, analyst, degen, coordinator, summarizer,
done, complete). -/
def routesList : List String :=
  ["oracle", "analyst", "degen", "coordinator", "summarizer", "done", "complete"]

/-! ### The cleaning step of `parseAgentRoutingResponse`

`src/core/Agent.js` lines 413-419: remove brackets and quotes globally,
then delete the first match of `/routing\s+to\s+/`, of `/\s+agent.*$/` and
of `/\s*\.\.\..*$/`, then trim.  The regex replacements are embedded as
leftmost-match scans; `\s+` is a maximal nonempty whitespace run (the
following literal characters are never whitespace, so greedy matching
never backtracks), and `.*$` requires the remainder of the string to be
newline-free (JavaScript `.` does not match a newline and `$` only matches
at the end of input). -/

def bracketChars : List Char := ['(', ')', '[', ']', '\x7b', '\x7d']

def quoteChars : List Char := ['\x22', '\x27']

/-- Consume the literal `pat` from the front of `l`, returning the rest. -/
def stripLit : List Char → List Char → Option (List Char)
  | [], l => some l
  | _ :: _, [] => none
  | p :: ps, c :: cs => if p == c then stripLit ps cs else none

/-- Consume a nonempty maximal whitespace run (`\s+`). -/
def wsRun1 : List Char → Option (List Char)
  | [] => none
  | c :: rest =>
    if c.isWhitespace then some (rest.dropWhile Char.isWhitespace) else none

/-- Match `/routing\s+to\s+/` at the head of the list, returning the
remainder after the match. -/
def matchRoutingTo (l : List Char) : Option (List Char) :=
  (stripLit ("routing".toList) l).bind fun l1 =>
    (wsRun1 l1).bind fun l2 =>
      (stripLit ("to".toList) l2).bind fun l3 =>
        wsRun1 l3

/-- Match `/\s+agent.*$/` at the head of the list (the match extends to the
end of the string, so the remainder is empty). -/
def matchAgentEnd (l : List Char) : Option (List Char) :=
  (wsRun1 l).bind fun l1 =>
    (stripLit ("agent".toList) l1).bind fun rest =>
      if rest.contains '\n' then none else some []

/-- Match `/\s*\.\.\..*$/` at the head of the list. -/
def matchDotsEnd (l : List Char) : Option (List Char) :=
  (stripLit ("...".toList) (l.dropWhile Char.isWhitespace)).bind fun rest =>
    if rest.contains '\n' then none else some []

/-- Replace the leftmost match of `m` by the empty string (JavaScript
`String.prototype.replace` with a non-global regex). -/
def replFirst (m : List Char → Option (List Char)) : List Char → List Char
  | [] => (m []).getD []
  | c :: rest =>
    match m (c :: rest) with
    | some r => r
    | none => c :: replFirst m rest

/-- The noise-stripping pipeline of `parseAgentRoutingResponse`
(`src/core/Agent.js` lines 413-419). -/
def cleanNoise (s : String) : String :=
  let l1 := s.toList.filter (fun c => !(bracketChars.contains c))
  let l2 := l1.filter (fun c => !(quoteChars.contains c))
  let l3 := replFirst matchRoutingTo l2
  let l4 := replFirst matchAgentEnd l3
  let l5 := replFirst matchDotsEnd l4
  strTrim ⟨l5⟩

/-- `AgenticPlatform.parseAgentRoutingResponse` (`src/core/Agent.js`
lines 397-428): lower-case and trim; accept an exact vocabulary match;
otherwise scan the vocabulary in order for a substring match; otherwise
strip wrapping noise and retry the exact match; otherwise default to
`"oracle"`. -/
def parseAgentRoutingResponse (content : String) : String :=
  let cleanContent := strTrim (strLower content)
  if routesList.contains cleanContent then cleanContent
  else
    match routesList.find? (fun route => strIncl cleanContent route) with
    | some route => route
    | none =>
      let cleaned := cleanNoise cleanContent
      if routesList.contains cleaned then cleaned
      else "oracle"

/-! ### The coordinator conditional edge (`src/core/Agent.js` lines 545-584) -/

/-- The lower-cased, trimmed contents of the last four messages
(`state.messages.slice(-4)` mapped through the `typeof` guard; a
non-string content becomes `""`). -/
def recentContents (msgs : List Msg) : List String :=
  (msgs.drop (msgs.length - 4)).map
    (fun m => ((m.content.map (fun s => strTrim (strLower s))).getD ""))

/-- Loop-detection condition 1: at least 3 of the last four contents
contain `"routing to"` or `"agent"`. -/
def loopRoutingChatter (msgs : List Msg) : Bool :=
  decide (3 ≤ ((recentContents msgs).filter
    (fun c => strIncl c "routing to" || strIncl c "agent")).length)

/-- Loop-detection condition 2: the set of distinct contents of length > 10
among the last four has size at most 2. -/
def loopNearRepetition (msgs : List Msg) : Bool :=
  decide ((((recentContents msgs).filter
    (fun c => decide (c.length > 10))).dedup).length ≤ 2)

/-- The completion-marker test on the last message's lower-cased content. -/
def hasCompletionMarker (c : String) : Bool :=
  strIncl (strLower c) "done" || strIncl (strLower c) "complete" ||
    strIncl (strLower c) "finished"

/-- The conditional-edge function attached to the coordinator node
(`src/core/Agent.js` lines 545-578).  `selectedAgent` is the value of the
platform's mutable `this.selectedAgent` field at evaluation time.  The
result is `none` when the JavaScript code would throw
(`lastMessage.content.toLowerCase()` on a missing or non-string content). -/
def routeEdge (msgs : List Msg) (selectedAgent : String) : Option String :=
  match msgs.getLast? with
  | none => none
  | some last =>
    match last.content with
    | none => none
    | some c =>
      if hasCompletionMarker c then some "summarizer"
      else if msgs.length > 4 then
        if loopRoutingChatter msgs then some "summarizer"
        else if loopNearRepetition msgs &&
            decide (4 ≤ (recentContents msgs).length) then some "summarizer"
        else some (if selectedAgent == "" then "oracle" else selectedAgent)
      else some (if selectedAgent == "" then "oracle" else selectedAgent)

/-- The target map of `addConditionalEdges` on the coordinator node
(`src/core/Agent.js` lines 579-584): only these four node names are
accepted branch destinations. -/
def conditionalEdgeTargets : List String := ["oracle", "analyst", "degen", "summarizer"]

/-! ### State accumulation (`AgentState` reducers, `src/core/Agent.js`
lines 154-171 and `src/core/WorkflowManager.ts` lines 99-116) -/

/-- The `messages` channel reducer: `(x, y) => x.concat(y)`. -/
def messagesReducer (x y : List Msg) : List Msg := x ++ y

/-- Fold a sequence of node updates (each a list of freshly produced
messages) into the accumulated transcript via the `messages` reducer. -/
def runNodeUpdates (init : List Msg) (updates : List (List Msg)) : List Msg :=
  updates.foldl messagesReducer init

/-- The `selectedAgent` channel reducer: `(x, y) => y ?? x ?? "oracle"`
(the incoming update is `none` when a node's return value omits the
channel). -/
def selectedAgentReducer (x : String) (y : Option String) : String := y.getD x

/-! ### Summarizer input filtering (`src/core/Agent.js` lines 519-541) -/

/-- The predicate of the summarizer node's `substantiveMessages` filter:
the lower-cased content (non-string content reads as `""`) must not
contain `"routing to"`, `"workflow complete"` or `"fallback"`, and the
content must be a string whose trimmed length exceeds 10. -/
def substantiveKeep (m : Msg) : Bool :=
  let content := (m.content.map strLower).getD ""
  !(strIncl content "routing to") &&
    !(strIncl content "workflow complete") &&
    !(strIncl content "fallback") &&
    (match m.content with
     | some s => decide ((strTrim s).length > 10)
     | none => false)

/-- The message list the summarizer node passes to the summarizer agent's
`processMessage`. -/
def summarizerInput (msgs : List Msg) : List Msg := msgs.filter substantiveKeep

/-! ### The per-agent tool-use loop (`src/core/Agent.ts` lines 107-151) -/

/-- A tool-invocation request attached to an AI message. -/
structure ToolCall where
  name : String
  args : String
deriving DecidableEq

/-- A message in the agent-level (`MessagesAnnotation`) workflow; unlike
`Msg` above, the content relevant here is always text, and AI messages may
carry `tool_calls`. -/
structure ChatMsg where
  role : Role
  content : String
  tool_calls : List ToolCall
deriving DecidableEq

/-- A capability registry: tool name to invocation function.  A tool that
throws is modelled by `Except.error` carrying the error message. -/
def Registry : Type := String → Option (String → Except String String)

/-- Modelled from the spec: the `ToolNode` used by `Agent.createWorkflow`
comes from `@langchain/langgraph/prebuilt` and its implementation is not
part of this repository.  Per the spec's failure semantics, invoking a
requested capability yields a tool-result turn whose content is the tool's
output, or the thrown error's message when the invocation fails — the
error is captured, not propagated. -/
def runToolCall (reg : Registry) (tc : ToolCall) : ChatMsg :=
  match reg tc.name with
  | none => ⟨Role.tool, "Error: " ++ tc.name ++ " is not a valid tool", []⟩
  | some invoke =>
    match invoke tc.args with
    | Except.ok out => ⟨Role.tool, out, []⟩
    | Except.error e => ⟨Role.tool, e, []⟩

/-- Modelled from the spec: the `ToolNode` executes every tool call
requested by the last (AI) message and contributes the resulting
tool-result turns as its state update. -/
def toolNodeStep (reg : Registry) (msgs : List ChatMsg) : List ChatMsg :=
  match msgs.getLast? with
  | none => []
  | some m => m.tool_calls.map (runToolCall reg)

/-- The `shouldContinue` router of `Agent.createWorkflow`
(`src/core/Agent.ts` lines 127-133): with pending tool calls go to the
tool node, otherwise end. -/
def shouldContinue (msgs : List ChatMsg) : Option String :=
  match msgs.getLast? with
  | none => none
  | some m => if m.tool_calls.length ≠ 0 then some "tools" else some "__end__"

/-- The unconditional edges of `Agent.createWorkflow`
(`src/core/Agent.ts` lines 136-141): `__start__ → agent` and
`tools → agent`. -/
def agentWorkflowEdge (node : String) : Option String :=
  if node == "__start__" then some "agent"
  else if node == "tools" then some "agent"
  else none

/-- The persona system message constructed by `callModel`. -/
def personaMsg (persona : String) : ChatMsg := ⟨Role.system, persona, []⟩

/-- The message list `callModel` hands to `this.model.invoke`
(`src/core/Agent.ts` lines 113-124): prepend the persona system message
unless some system message is already present. -/
def callModelInput (persona : String) (msgs : List ChatMsg) : List ChatMsg :=
  if msgs.any (fun m => m.role == Role.system) then msgs
  else personaMsg persona :: msgs

/-! ### The shared routing field (`src/core/Agent.js` lines 181-189, 468-584) -/

/-- The mutable routing state stored on the `AgenticPlatform` instance
(`private selectedAgent: string`), shared by every run executing on the
platform. -/
structure PlatformField where
  selectedAgent : String
deriving DecidableEq

/-- The write the coordinator node performs on the shared platform field:
`this.selectedAgent = this.parseAgentRoutingResponse(content)`
(`src/core/Agent.js` lines 476-481). -/
def coordinatorWrite (_p : PlatformField) (content : String) : PlatformField :=
  ⟨parseAgentRoutingResponse content⟩

/-- The conditional-edge decision as actually computed: it reads the
platform instance's `selectedAgent` field, not a per-run value. -/
def routeDecision (p : PlatformField) (msgs : List Msg) : Option String :=
  routeEdge msgs p.selectedAgent

/-- The filter predicate as the specification words it: the content is a
string that does not contain "routing to", "workflow complete" or
"fallback" case-insensitively, and its trimmed length exceeds 10. -/
def claimSubstantive (m : Msg) : Bool :=
  match m.content with
  | some s =>
    !(strIncl (strLower s) "routing to") &&
      !(strIncl (strLower s) "workflow complete") &&
      !(strIncl (strLower s) "fallback") &&
      decide ((strTrim s).length > 10)
  | none => false

/-! ## Theorems -/

/-- Any accumulated transcript is a prefix of the transcript after further
node updates. -/
theorem runNodeUpdates_extends (updates : List (List Msg)) (init : List Msg) :
    init <+: runNodeUpdates init updates := by
  induction updates generalizing init with
  | nil => exact List.prefix_rfl
  | cons u rest ih =>
    exact (List.prefix_append init u).trans (ih (init ++ u))

/-- C3: the `messages` reducer only concatenates, so across any sequence of
node executions the transcript after the first `k` updates is a prefix of
(and hence no longer than) the final transcript, and the initial
transcript is a prefix of every later one — nothing is replaced, removed
or reordered. -/
theorem transcript_append_only (init : List Msg) (updates : List (List Msg)) (k : Nat) :
    runNodeUpdates init (updates.take k) <+: runNodeUpdates init updates ∧
    (runNodeUpdates init (updates.take k)).length ≤ (runNodeUpdates init updates).length ∧
    init <+: runNodeUpdates init updates := by
  have hsplit : runNodeUpdates init updates
      = runNodeUpdates (runNodeUpdates init (updates.take k)) (updates.drop k) := by
    unfold runNodeUpdates
    rw [← List.foldl_append, List.take_append_drop]
  have h1 : runNodeUpdates init (updates.take k) <+: runNodeUpdates init updates := by
    rw [hsplit]; exact runNodeUpdates_extends _ _
  exact ⟨h1, h1.length_le, runNodeUpdates_extends _ _⟩

/-- C4: the summarizer node passes to the summarizer agent exactly the
messages whose content is a string free of the three meta markers
(case-insensitively) with trimmed length greater than 10; all other
messages, including any with non-string content, are excluded. -/
theorem summarizer_input_filter (msgs : List Msg) :
    summarizerInput msgs = msgs.filter claimSubstantive := by
  unfold summarizerInput
  congr 1
  funext m
  cases h : m.content with
  | none => simp [substantiveKeep, claimSubstantive, h]
  | some s => simp [substantiveKeep, claimSubstantive, h]

/-- C6: whenever the last message's lower-cased content contains "done",
"complete" or "finished", the conditional edge selects the summarizer,
whatever agent name was parsed into `selectedAgent`. -/
theorem completion_marker_forces_summarizer (msgs : List Msg) (sel : String)
    (m : Msg) (c : String)
    (hl : msgs.getLast? = some m) (hc : m.content = some c)
    (hmark : hasCompletionMarker c = true) :
    routeEdge msgs sel = some "summarizer" := by
  unfold routeEdge
  rw [hl]
  simp [hc, hmark]

/-- Witness for C6 at a concrete transcript. -/
theorem completion_marker_forces_summarizer_witness :
    routeEdge [⟨Role.ai, some "Task complete"⟩] "degen" = some "summarizer" :=
  completion_marker_forces_summarizer _ "degen" ⟨Role.ai, some "Task complete"⟩
    "Task complete" (by decide) (by decide) (by decide)

/-- C10: `parseAgentRoutingResponse` is total and its result always lies in
the seven-element vocabulary `AGENT_ROUTES`; in particular it can return
"coordinator" and "summarizer". -/
theorem parse_routing_closed_range :
    (∀ s, routesList.contains (parseAgentRoutingResponse s) = true) ∧
    parseAgentRoutingResponse "coordinator" = "coordinator" ∧
    parseAgentRoutingResponse "summarizer" = "summarizer" := by
  refine ⟨fun s => ?_, by decide, by decide⟩
  simp only [parseAgentRoutingResponse]
  split
  · assumption
  · split
    · next route hfind =>
      exact List.elem_iff.mpr (List.mem_of_find?_eq_some hfind)
    · split
      · assumption
      · decide

/-- C8: `callModel` hands the model the message list unchanged when a
system message is already present anywhere in it, and otherwise prepends
the persona system instruction as the first message. -/
theorem persona_prepending (persona : String) (msgs : List ChatMsg) :
    (msgs.any (fun m => m.role == Role.system) = true →
      callModelInput persona msgs = msgs) ∧
    (msgs.any (fun m => m.role == Role.system) = false →
      callModelInput persona msgs = personaMsg persona :: msgs) := by
  constructor <;> intro h <;> simp [callModelInput, h]

/-- Witness for C8: one list that already holds a system message and one
that does not. -/
theorem persona_prepending_witness :
    callModelInput "Be helpful" [⟨Role.system, "existing", []⟩]
        = [⟨Role.system, "existing", []⟩] ∧
    callModelInput "Be helpful" [⟨Role.human, "hi", []⟩]
        = personaMsg "Be helpful" :: [⟨Role.human, "hi", []⟩] :=
  ⟨(persona_prepending "Be helpful" _).1 (by decide),
   (persona_prepending "Be helpful" _).2 (by decide)⟩

/-- A five-message transcript whose last four turns are long, distinct and
free of routing chatter, but whose last turn is the short string "done". -/
def markerNotLoopMsgs : List Msg :=
  [⟨Role.human, some "numbers 111111111111"⟩,
   ⟨Role.ai, some "numbers 222222222222"⟩,
   ⟨Role.ai, some "numbers 333333333333"⟩,
   ⟨Role.ai, some "numbers 444444444444"⟩,
   ⟨Role.ai, some "done"⟩]

/-- C1 counterexample: with more than 4 messages, neither loop-detection
condition holding, and `selectedAgent = "analyst"`, the edge still
selects the summarizer (the completion-marker check precedes loop
detection), so routing does not proceed to the selected agent. -/
theorem loop_detection_counterexample :
    markerNotLoopMsgs.length > 4 ∧
    loopRoutingChatter markerNotLoopMsgs = false ∧
    loopNearRepetition markerNotLoopMsgs = false ∧
    routeEdge markerNotLoopMsgs "analyst" = some "summarizer" ∧
    some "summarizer" ≠ some "analyst" := by decide

/-- The last four lower-cased trimmed contents number exactly 4 once the
transcript is longer than 4. -/
theorem recentContents_length_eq (msgs : List Msg) (hlen : msgs.length > 4) :
    (recentContents msgs).length = 4 := by
  simp only [recentContents, List.length_map, List.length_drop]
  omega

/-- C1 (amended): at the coordinator's routing step with transcript length
> 4 and a string last content free of completion markers, the edge forces
the summarizer exactly when at least 3 of the last 4 contents contain
"routing to" or "agent", or the distinct contents of length > 10 among
them number at most 2; otherwise it routes to the selected agent
(defaulting to "oracle" when the field is empty). -/
theorem loop_detection_amended (msgs : List Msg) (sel : String) (m : Msg) (c : String)
    (hl : msgs.getLast? = some m) (hc : m.content = some c)
    (hmark : hasCompletionMarker c = false) (hlen : msgs.length > 4) :
    routeEdge msgs sel =
      some (if loopRoutingChatter msgs || loopNearRepetition msgs then "summarizer"
            else if sel == "" then "oracle" else sel) := by
  have hrc : (recentContents msgs).length = 4 := recentContents_length_eq msgs hlen
  unfold routeEdge
  rw [hl]
  cases hA : loopRoutingChatter msgs <;> cases hB : loopNearRepetition msgs <;>
    simp [hc, hmark, hlen, hA, hB, hrc]

/-- A five-message transcript with long distinct marker-free contents. -/
def quietMsgs : List Msg :=
  [⟨Role.human, some "what is the price of bitcoin today"⟩,
   ⟨Role.ai, some "the price is fifty thousand usd"⟩,
   ⟨Role.human, some "please add more detail for me"⟩,
   ⟨Role.ai, some "here are many more details for you"⟩,
   ⟨Role.human, some "thanks for all of that info"⟩]

/-- Witness for the amended C1: on a quiet transcript the edge routes to
the selected agent. -/
theorem loop_detection_amended_witness :
    routeEdge quietMsgs "degen" = some "degen" :=
  (loop_detection_amended quietMsgs "degen"
    ⟨Role.human, some "thanks for all of that info"⟩ "thanks for all of that info"
    (by decide) (by decide) (by decide) (by decide)).trans (by decide)

/-- C2 counterexample: "do'ne" (apostrophe inside) contains no vocabulary
token as a substring, yet the parser returns "done" (quote-stripping
creates the token), not the default "oracle". -/
theorem router_canonicalization_counterexample :
    routesList.all (fun t => !(strIncl (strTrim (strLower "do\x27ne")) t)) = true ∧
    parseAgentRoutingResponse "do\x27ne" = "done" ∧
    ("done" : String) ≠ "oracle" := by decide

/-- C2 (amended): if the lower-cased trimmed text contains exactly one
vocabulary token as a substring, the parser returns that token; if it
contains none, the parser returns "oracle" unless stripping wrapping noise
turns the text into a vocabulary token, which is then returned. -/
theorem router_canonicalization_amended (s : String) :
    (∀ t, t ∈ routesList → strIncl (strTrim (strLower s)) t = true →
      (∀ u, u ∈ routesList → strIncl (strTrim (strLower s)) u = true → u = t) →
      parseAgentRoutingResponse s = t) ∧
    ((∀ t, t ∈ routesList → strIncl (strTrim (strLower s)) t = false) →
      (routesList.contains (cleanNoise (strTrim (strLower s))) = false →
        parseAgentRoutingResponse s = "oracle") ∧
      (routesList.contains (cleanNoise (strTrim (strLower s))) = true →
        parseAgentRoutingResponse s = cleanNoise (strTrim (strLower s)))) := by
  constructor
  · intro t ht hct huniq
    simp only [parseAgentRoutingResponse]
    split
    · next hmem =>
      exact huniq _ (List.elem_iff.mp hmem) (strIncl_self _)
    · split
      · next route hfind =>
        exact huniq route (List.mem_of_find?_eq_some hfind) (List.find?_some hfind)
      · next hfind =>
        exact absurd hct (by simpa using List.find?_eq_none.mp hfind t ht)
  · intro hnone
    have hself : routesList.contains (strTrim (strLower s)) = false := by
      cases hmem : routesList.contains (strTrim (strLower s)) with
      | false => rfl
      | true =>
        have := hnone _ (List.elem_iff.mp hmem)
        rw [strIncl_self] at this
        exact absurd this (by simp)
    have hfind : routesList.find? (fun route => strIncl (strTrim (strLower s)) route) = none :=
      List.find?_eq_none.mpr (fun x hx => by simp [hnone x hx])
    have h1 : strTrim (strLower s) ∉ routesList := by simpa using hself
    refine ⟨fun hclean => ?_, fun hclean => ?_⟩
    · have h2 : cleanNoise (strTrim (strLower s)) ∉ routesList := by simpa using hclean
      simp [parseAgentRoutingResponse, hfind, h1, h2]
    · have h2 : cleanNoise (strTrim (strLower s)) ∈ routesList := List.elem_iff.mp hclean
      simp [parseAgentRoutingResponse, hfind, h1, h2]

/-- Witness for the amended C2: a wrapped single-token text canonicalizes
to that token, and a token-free text defaults to "oracle". -/
theorem router_canonicalization_amended_witness :
    parseAgentRoutingResponse "Routing to the ANALYST agent..." = "analyst" ∧
    parseAgentRoutingResponse "xyzzy" = "oracle" :=
  ⟨(router_canonicalization_amended "Routing to the ANALYST agent...").1
      "analyst" (by decide) (by decide) (by decide),
   ((router_canonicalization_amended "xyzzy").2 (by decide)).1 (by decide)⟩

/-- C5: the coordinator output "coordinator" parses to itself, the
conditional edge returns it, and the edge's target map does not accept it
— the routing step ends in a destination the mapping rejects, which is a
fatal error at graph level. -/
theorem routing_escapes_edge_mapping :
    routeDecision (coordinatorWrite ⟨"oracle"⟩ "coordinator")
        [⟨Role.human, some "hello"⟩, ⟨Role.ai, some "coordinator"⟩]
      = some "coordinator" ∧
    conditionalEdgeTargets.contains "coordinator" = false := by decide

/-- C7: when a requested capability's invocation fails, the tool node's
update contains a tool-result message whose content is exactly the error
message, and the workflow edge from the tool node goes back to the agent
(THINK) node rather than ending. -/
theorem capability_failure_isolated (reg : Registry) (tc : ToolCall)
    (f : String → Except String String) (e : String)
    (msgs : List ChatMsg) (m : ChatMsg)
    (hreg : reg tc.name = some f) (hinv : f tc.args = Except.error e)
    (hl : msgs.getLast? = some m) (htc : tc ∈ m.tool_calls) :
    (∃ tm ∈ toolNodeStep reg msgs, tm.role = Role.tool ∧ tm.content = e) ∧
    agentWorkflowEdge "tools" = some "agent" := by
  refine ⟨⟨runToolCall reg tc, ?_, ?_, ?_⟩, rfl⟩
  · unfold toolNodeStep
    rw [hl]
    exact List.mem_map_of_mem _ htc
  · simp [runToolCall, hreg, hinv]
  · simp [runToolCall, hreg, hinv]

/-- A registry holding a single tool whose invocation always fails. -/
def failingRegistry : Registry := fun n =>
  if n == "search" then some (fun _ => Except.error "Tool exploded") else none

/-- Witness for C7 with a concrete failing tool. -/
theorem capability_failure_isolated_witness :
    (∃ tm ∈ toolNodeStep failingRegistry
        [⟨Role.ai, "calling tool", [⟨"search", "query"⟩]⟩],
      tm.role = Role.tool ∧ tm.content = "Tool exploded") ∧
    agentWorkflowEdge "tools" = some "agent" :=
  capability_failure_isolated failingRegistry ⟨"search", "query"⟩
    (fun _ => Except.error "Tool exploded") "Tool exploded"
    [⟨Role.ai, "calling tool", [⟨"search", "query"⟩]⟩]
    ⟨Role.ai, "calling tool", [⟨"search", "query"⟩]⟩
    rfl rfl (by decide) (by decide)

/-- The transcript of run A after its coordinator answered "analyst". -/
def runASeed : List Msg :=
  [⟨Role.human, some "please review the market data for me"⟩,
   ⟨Role.ai, some "analyst"⟩]

/-- C9 counterexample: with run A's own state fixed, the edge decision
changes from "analyst" to "degen" when a concurrent run B's coordinator
writes the shared `selectedAgent` field between run A's coordinator step
and its edge evaluation — the decision is not a function of run A's state
alone. -/
theorem routing_shared_state_counterexample :
    routeDecision (coordinatorWrite ⟨"oracle"⟩ "analyst") runASeed = some "analyst" ∧
    routeDecision (coordinatorWrite (coordinatorWrite ⟨"oracle"⟩ "analyst") "degen")
        runASeed = some "degen" ∧
    (some "analyst" : Option String) ≠ some "degen" := by decide

/-- C9 (amended): when a run's coordinator write is the latest write to the
shared field (no interleaved coordinator step of another run), the edge
decision is a function of that run's own messages and coordinator output
only — in particular it is independent of the platform state left by any
earlier run. -/
theorem routing_isolated_when_uninterleaved (p q : PlatformField)
    (msgs : List Msg) (content : String) :
    routeDecision (coordinatorWrite p content) msgs
        = routeEdge msgs (parseAgentRoutingResponse content) ∧
    routeDecision (coordinatorWrite p content) msgs
        = routeDecision (coordinatorWrite q content) msgs :=
  ⟨rfl, rfl⟩

end AgenticLab
